import Mathlib

/-!
Verification development for the speculative-decoding coordinator
(Choral-Spec): a shallow embedding of the orchestrator (src/main.py),
the draft worker (src/inference/draft_worker.py), the target worker
(src/inference/target_worker.py) and the single-sequence decode loop
(src/inference/speculative.py), together with theorems that settle the
behavioural claims about them.

Modelling conventions:
* probabilities are rationals (`ℚ`); a next-token distribution is a
  `List ℚ` indexed by token id;
* a transformer KV cache together with its `last_logits` is determined
  by the exact token sequence fed through the model so far, so a
  context (`past`, `last_logits`) is embedded as the `List ℕ` of
  ingested token ids, and the models themselves are parameters
  (`tm : List ℕ → List ℚ` gives the target's next-token distribution
  after a context, `pick : ℕ → List ℕ → ℕ × ℚ` gives the draft's
  sampled token and its reported probability at a loop step, folding
  the temperature/top-p/top-k/multinomial pipeline and its RNG draw
  into an oracle);
* session ids are opaque identifiers, embedded as `ℕ`;
* an RPC handler that answers `success = false` is embedded as an
  `Option`/`Bool` result.
-/

abbrev Sid := ℕ

/-- Result row of `VerifyBatchTokens`: (tokens_accepted, target_token, finished). -/
abbrev VerifyRes := ℕ × ℕ × Bool

/-- True when the optional EOS id matches the token, as in the Python
comparisons `token == self.eos_token_id` guarded by EOS being set. -/
def eosIs (eos : Option ℕ) (t : ℕ) : Bool := decide (eos = some t)

/-- First index of the maximum entry, the behaviour of `torch.argmax`
on the final logits row (ties resolved to the first occurrence). -/
def idxOfMaxAux : List ℚ → ℕ → ℚ → ℕ → ℕ
  | [], _, _, best => best
  | p :: rest, i, bv, best =>
      if bv < p then idxOfMaxAux rest (i + 1) p i
      else idxOfMaxAux rest (i + 1) bv best

/-- Here `idxOfMax ps` is the id `torch.argmax` picks from distribution `ps`. -/
def idxOfMax : List ℚ → ℕ
  | [] => 0
  | p :: rest => idxOfMaxAux rest 1 p 0

/-- Inverse-CDF sampling: the index a multinomial draw with uniform
variate `u ∈ [0,1)` selects from the distribution. -/
def sampleIdx : List ℚ → ℚ → ℕ
  | [], _ => 0
  | p :: ps, u => if u < p then 0 else sampleIdx ps (u - p) + 1

/-- The ε the spec uses for the residual renormalizer test. -/
def resEps : ℚ := 1 / 1000000000

/-- Residual distribution of spec section 4.4: elementwise
`max (P - Q) 0`; if its mass `s` is at least ε it is normalized by `s`,
otherwise `P` is used. -/
def normResidual (P Q : List ℚ) : List ℚ :=
  let r := List.zipWith (fun p q => max (p - q) 0) P Q
  let s := r.sum
  if resEps ≤ s then r.map (· / s) else P

/-- Modelled from the spec: the target worker's GenerateTargetToken
handler is declared in the wire protocol and invoked by the
orchestrator (src/main.py), but it has no implementation under src/.
Per spec section 4.3, with an empty draft distribution it samples from
the target's own distribution `P`; otherwise it samples from the
renormalized residual `max (P - Q) 0`. `u` is the uniform variate of
the multinomial draw. -/
def generateTargetToken (P Q : List ℚ) (u : ℚ) : ℕ :=
  if Q = [] then sampleIdx P u else sampleIdx (normResidual P Q) u

/-! ## Target worker (src/inference/target_worker.py)

A `BatchedTargetSession` keeps a `[batch_size, seq_len]` tensor of
committed token ids with per-row lengths and a per-row finished mask;
row `r` of it is embedded as the pair of its committed token list and
its finished flag. `StartGeneration`, the only session constructor in
the source, always creates a single-row session. -/

structure TargetSession where
  rows : List (List ℕ × Bool)
  deriving DecidableEq

/-- All rows finished (`BatchedTargetSession.is_all_finished`). -/
def allFinished (s : TargetSession) : Bool := s.rows.all (fun rb => rb.2)

/-- Number of active (unfinished) rows (`get_active_indices` length). -/
def activeCount (s : TargetSession) : ℕ :=
  (s.rows.filter (fun rb => !rb.2)).length

/-- Per-row body of `VerifyBatchTokens` (target_worker.py lines
179-301): each active row, paired with its draft token `d`, extends
its context by `d`, takes the greedy argmax `t` of the model's final
logits, accepts `d` when `t = d` (appending `d`) and otherwise forces
`t` (appending `t`); in both cases the appended token is written into
the session's `current_ids` and the EOS mask is updated. The batched
forward pass reads every row at the common final position; the
embedding evaluates each row at its own final position, which agrees
with the source whenever the active rows have equal context lengths —
in particular always, since `StartGeneration` only creates single-row
sessions. -/
def verifyRowsGo (eos : Option ℕ) (tm : List ℕ → List ℚ) :
    List (List ℕ × Bool) → List ℕ → List (List ℕ × Bool) × List VerifyRes
  | [], _ => ([], [])
  | (row, true) :: rest, ds =>
      let (rest', rs) := verifyRowsGo eos tm rest ds
      ((row, true) :: rest', rs)
  | (row, false) :: rest, [] => ((row, false) :: rest, [])
  | (row, false) :: rest, d :: ds =>
      let t := idxOfMax (tm (row ++ [d]))
      let chosen := if t = d then d else t
      let fin := eosIs eos chosen
      let res : VerifyRes := if t = d then (1, 0, fin) else (0, t, fin)
      let (rest', rs) := verifyRowsGo eos tm rest ds
      ((row ++ [chosen], fin) :: rest', res :: rs)

/-- `VerifyBatchTokens` for one session (target_worker.py lines
107-301): a fully finished session answers a single
`(0, 0, finished := true)` result; a draft-token list whose length
differs from the number of active rows is rejected with one
`(0, 0, false)` result per active row and no state change; otherwise
the greedy per-row comparison of `verifyRowsGo` runs. -/
def verifySession (eos : Option ℕ) (tm : List ℕ → List ℚ)
    (s : TargetSession) (ds : List ℕ) : TargetSession × List VerifyRes :=
  if allFinished s then (s, [(0, 0, true)])
  else if ds.length ≠ activeCount s then
    (s, List.replicate (activeCount s) ((0, 0, false) : VerifyRes))
  else
    let (rows', rs) := verifyRowsGo eos tm s.rows ds
    (⟨rows'⟩, rs)

/-- Row scan of `FinalizeBatchTokens` (target_worker.py lines 331-356):
the first non-finished row receives all the tokens, its finished flag
is set when any of them is the EOS id, and the row's resulting flag is
reported; with no non-finished row the state is unchanged and
`finished := true` is reported. -/
def finalizeRows (eos : Option ℕ) (toks : List ℕ) :
    List (List ℕ × Bool) → List (List ℕ × Bool) × Bool
  | [] => ([], true)
  | (row, true) :: rest =>
      let (rest', b) := finalizeRows eos toks rest
      ((row, true) :: rest', b)
  | (row, false) :: rest =>
      let fin := toks.any (eosIs eos)
      ((row ++ toks, fin) :: rest, fin)

/-- `FinalizeBatchTokens` for one session (target_worker.py lines
320-356): an empty token list changes nothing and reports whether the
whole session is finished; otherwise the tokens are appended to the
first non-finished row. -/
def finalizeOne (eos : Option ℕ) (s : TargetSession) (toks : List ℕ) :
    TargetSession × Bool :=
  if toks = [] then (s, allFinished s)
  else
    let (rows', b) := finalizeRows eos toks s.rows
    (⟨rows'⟩, b)

/-- Replace the binding of `sid` in a session table (the effect of the
Python in-place mutation of the dict entry's object). -/
def setTable {α : Type} : List (Sid × α) → Sid → α → List (Sid × α)
  | [], _, _ => []
  | (k, v) :: rest, sid, x =>
      if k = sid then (k, x) :: rest else (k, v) :: setTable rest sid x

/-- Request loop of `FinalizeBatchTokens` (target_worker.py lines
312-357): sequences are processed in order; an unknown session id
yields a `finished := true` result and leaves the table unchanged. -/
def finalizeBatchGo (eos : Option ℕ) :
    List (Sid × TargetSession) → List (Sid × List ℕ) →
      List (Sid × TargetSession) × List (Sid × Bool)
  | table, [] => (table, [])
  | table, (sid, toks) :: rest =>
      match table.lookup sid with
      | none =>
          let (t', rs) := finalizeBatchGo eos table rest
          (t', (sid, true) :: rs)
      | some sess =>
          let (sess', b) := finalizeOne eos sess toks
          let (t', rs) := finalizeBatchGo eos (setTable table sid sess') rest
          (t', (sid, b) :: rs)

/-- The `FinalizeBatchTokens` RPC over the session table. -/
def finalizeBatch (eos : Option ℕ) (table : List (Sid × TargetSession))
    (reqs : List (Sid × List ℕ)) :
    List (Sid × TargetSession) × List (Sid × Bool) :=
  finalizeBatchGo eos table reqs

/-- Request loop of `VerifyBatchTokens` (target_worker.py lines
84-304) for requests with one `DraftSequence` per (distinct) session
id, the shape the handler's grouping produces there: an unknown
session id yields `(0, 0, finished := true)` and no table change. -/
def verifyBatchGo (eos : Option ℕ) (tm : List ℕ → List ℚ) :
    List (Sid × TargetSession) → List (Sid × List ℕ) →
      List (Sid × TargetSession) × List (Sid × VerifyRes)
  | table, [] => (table, [])
  | table, (sid, ds) :: rest =>
      match table.lookup sid with
      | none =>
          let (t', rs) := verifyBatchGo eos tm table rest
          (t', (sid, ((0, 0, true) : VerifyRes)) :: rs)
      | some sess =>
          let (sess', rs) := verifySession eos tm sess ds
          let (t', rest') := verifyBatchGo eos tm (setTable table sid sess') rest
          (t', rs.map (fun r => (sid, r)) ++ rest')

/-- The `VerifyBatchTokens` RPC over the session table. -/
def verifyBatch (eos : Option ℕ) (tm : List ℕ → List ℚ)
    (table : List (Sid × TargetSession)) (reqs : List (Sid × List ℕ)) :
    List (Sid × TargetSession) × List (Sid × VerifyRes) :=
  verifyBatchGo eos tm table reqs

/-- The single-sequence `FinalizeTokens` handler (target_worker.py
lines 395-401): it ignores its arguments and answers
`final_token = 0, finished = true`. -/
def finalizeTokens (acceptedCount draftChunkSize : ℕ) : ℕ × Bool :=
  (0, true)

/-- The tokens a `speculative_decode_batch` round commits for one
sequence from a verify result (speculative.py lines 449-515): the
accepted prefix of the proposed block, followed by the mismatch token
when it is nonzero. -/
def batchRoundCommit (blockToks : List ℕ) (acceptedCount mismatchTok : ℕ) :
    List ℕ :=
  blockToks.take acceptedCount ++ (if mismatchTok ≠ 0 then [mismatchTok] else [])

/-! ## Draft worker (src/inference/draft_worker.py)

A draft session holds `past`, `last_logits` and the
`state_cache_stack`. With contexts embedded as ingested-token lists,
`past` is the context and each stack slot is an optional context
snapshot (`None` slots are slots the generation loop never wrote). -/

structure DraftState where
  past : List ℕ
  stack : List (Option (List ℕ))
  deriving DecidableEq

/-- The initial `state_cache_stack` of a `GenerateDraft` round
(draft_worker.py lines 124-129): `draft_length + 1` empty slots with
slot 0 set to a deep copy of the current state. -/
def initStack (γ : ℕ) (st : DraftState) : List (Option (List ℕ)) :=
  (List.replicate (γ + 1) (none : Option (List ℕ))).set 0 (some st.past)

/-- The per-token loop of `GenerateDraft` (draft_worker.py lines
131-193), iterations `i, i+1, ...` while `fuel` counts the iterations
actually completed (a forward-pass exception ends the loop early, so a
normal run has `fuel = draft_length`). Each iteration samples
`(t, q) := pick i cur`, appends them to the token and probability
outputs, and — only when `i < draft_length` — advances the context by
`t` and writes snapshot slot `i`. Returns
(context, tokens, probabilities, stack). -/
def draftGo (pick : ℕ → List ℕ → ℕ × ℚ) (γ : ℕ) :
    ℕ → ℕ → List ℕ → List ℕ → List ℚ → List (Option (List ℕ)) →
      List ℕ × List ℕ × List ℚ × List (Option (List ℕ))
  | 0, _, cur, toks, ps, stk => (cur, toks, ps, stk)
  | fuel + 1, i, cur, toks, ps, stk =>
      let tq := pick i cur
      let toks' := toks ++ [tq.1]
      let ps' := ps ++ [tq.2]
      if i < γ then
        let cur' := cur ++ [tq.1]
        draftGo pick γ fuel (i + 1) cur' toks' ps' (stk.set i (some cur'))
      else
        draftGo pick γ fuel (i + 1) cur toks' ps' stk

/-- An exception-free `GenerateDraft` round for one session
(draft_worker.py lines 121-199): the loop runs for
`i = 1 .. draft_length`, then the session's live state is replaced by
the final context and snapshot slot `draft_length` is written with a
copy of it. -/
def generateDraftRound (pick : ℕ → List ℕ → ℕ × ℚ) (γ : ℕ)
    (st : DraftState) : DraftState × List ℕ × List ℚ :=
  let r := draftGo pick γ γ 1 st.past [] [] (initStack γ st)
  (⟨r.1, r.2.2.2.set γ (some r.1)⟩, r.2.1, r.2.2.1)

/-- Per-request loop of `GenerateDraft` for `draft_length > 0`
(draft_worker.py lines 115-212): a session id missing from the table
is silently skipped — the response carries no output of any kind for
it — and present sessions are processed in order. -/
def generateDraftGo (pick : ℕ → List ℕ → ℕ × ℚ) (γ : ℕ) :
    List (Sid × DraftState) → List Sid →
      List (Sid × DraftState) × List (Sid × List ℕ × List ℚ)
  | table, [] => (table, [])
  | table, s :: rest =>
      match table.lookup s with
      | none => generateDraftGo pick γ table rest
      | some st =>
          let r := generateDraftRound pick γ st
          let tr := generateDraftGo pick γ (setTable table s r.1) rest
          (tr.1, (s, r.2.1, r.2.2) :: tr.2)

/-- The `GenerateDraft` RPC (draft_worker.py lines 102-212): with
`draft_length = 0` it returns an output with empty token and
probability lists for every requested session id, touching no session
state; otherwise it runs the per-session rounds. -/
def generateDraftRPC (pick : ℕ → List ℕ → ℕ × ℚ) (γ : ℕ)
    (table : List (Sid × DraftState)) (sids : List Sid) :
    List (Sid × DraftState) × List (Sid × List ℕ × List ℚ) :=
  if γ = 0 then (table, sids.map fun s => (s, [], []))
  else generateDraftGo pick γ table sids

/-- `UpdateDraftContext` for one session (draft_worker.py lines
222-245): when the snapshot stack is non-empty, the state after
`accepted_count` tokens is restored from slot `accepted_count`
(an out-of-range index or an unwritten `None` slot raises, which the
handler reports as `success = false` with the state untouched — the
`none` result); then, unconditionally, one forward step ingests
`new_token` (the source has no `new_token = 0` guard), and the
snapshot stack is cleared. -/
def updateDraftContext (st : DraftState) (a newTok : ℕ) :
    Option DraftState :=
  match st.stack with
  | [] => some ⟨st.past ++ [newTok], []⟩
  | _ :: _ =>
      match st.stack.get? a with
      | none => none
      | some none => none
      | some (some snap) => some ⟨snap ++ [newTok], []⟩

/-- The `UpdateDraftContext` RPC (draft_worker.py lines 214-248): an
unknown session id answers `success = false` ("Session not found") and
leaves the table unchanged. -/
def updateDraftContextRPC (table : List (Sid × DraftState)) (sid : Sid)
    (a newTok : ℕ) : Bool × List (Sid × DraftState) :=
  match table.lookup sid with
  | none => (false, table)
  | some st =>
      match updateDraftContext st a newTok with
      | none => (false, table)
      | some st' => (true, setTable table sid st')

/-! ## Acceptance test of the single-sequence loop
(src/inference/speculative.py lines 132-151) -/

/-- The target probability the acceptance loop reads for index `idx`
(speculative.py line 136): `target_probs[idx]` when in range, else 0. -/
def specTargetProb (tProbs : List ℚ) (idx : ℕ) : ℚ := tProbs.getD idx 0

/-- The draft probability the acceptance loop reads for index `idx`
(speculative.py line 137): `draft_probs[idx]` when in range, else the
default `1e-9`. -/
def specDraftProb (dProbs : List ℚ) (idx : ℕ) : ℚ :=
  dProbs.getD idx (1 / 1000000000)

/-- The acceptance bound of speculative.py lines 138-140 (`ratio` in
the source): `p_target / p_draft` when `p_draft > 0`, else `0.0`,
clamped from above to 1. -/
def acceptThreshold (pT pD : ℚ) : ℚ :=
  let r := if 0 < pD then pT / pD else 0
  if 1 < r then 1 else r

/-- The acceptance test at one index (speculative.py line 142): accept
when the uniform draw `u` is strictly below the bound. -/
def specAccepts (u pT pD : ℚ) : Bool := decide (u < acceptThreshold pT pD)

/-- Claimed acceptance bound, following the spec's words for claim C2:
`min(1, p_i / max(q_i, ε))` with `ε = 10⁻⁹`. -/
def claimThreshold (pT pD : ℚ) : ℚ := min 1 (pT / max pD (1 / 1000000000))

/-! ## Orchestrator round (src/main.py lines 140-251)

One acceptance round for one sequence. The RPC answers are inputs:
`tProbs` are the `CheckTokenProbability` replies, `us` the
`torch.rand` draws, `fallbackTok`/`bonusTok` the `GenerateTargetToken`
replies used on the mismatch and full-acceptance paths (AppendToken
and UpdateDraftContext are assumed transport-successful; their state
effects live in the worker embeddings above). -/

structure AcceptOut where
  committed : List ℕ
  gen : ℕ
  acceptCount : ℕ
  mismatched : Bool
  finished : Bool
  deriving DecidableEq

structure RoundResult where
  committed : List ℕ
  gen : ℕ
  finished : Bool
  deriving DecidableEq

/-- Acceptance loop of main.py lines 152-189: walk the draft tokens;
at index `j` read `p`, read `q := d_probs[j] if d_probs[j] > 0 else
1e-8`, and reject when the uniform draw exceeds `p / q` (accepting
ties); an accepted token is committed and counted at once, finishing
the sequence on EOS (when enabled) or on reaching
`max_new_tokens`. -/
def mainAcceptGo (maxNew : ℕ) (eos : Option ℕ) (stop : Bool)
    (dProbs tProbs us : List ℚ) :
    List ℕ → ℕ → ℕ → ℕ → AcceptOut
  | [], _, gen, acc => ⟨[], gen, acc, false, false⟩
  | d :: rest, j, gen, _ =>
      let p := tProbs.getD j 0
      let q0 := dProbs.getD j 0
      let q := if 0 < q0 then q0 else 1 / 100000000
      let u := us.getD j 0
      if p / q < u then ⟨[], gen, j, true, false⟩
      else
        let gen' := gen + 1
        let fin := (stop && eosIs eos d) || decide (maxNew ≤ gen')
        if fin then ⟨[d], gen', j + 1, false, true⟩
        else
          let out := mainAcceptGo maxNew eos stop dProbs tProbs us rest
            (j + 1) gen' (j + 1)
          ⟨d :: out.committed, out.gen, out.acceptCount, out.mismatched,
            out.finished⟩

/-- One orchestrator round for one sequence (main.py lines 152-251):
run the acceptance loop; if it finished the sequence, stop there; on a
mismatch commit the target's fallback token; on full acceptance commit
the target's bonus token; either extra token re-checks EOS and the
`max_new_tokens` budget. -/
def mainRound (maxNew : ℕ) (eos : Option ℕ) (stop : Bool)
    (dToks : List ℕ) (dProbs tProbs us : List ℚ)
    (fallbackTok bonusTok : ℕ) (gen0 : ℕ) : RoundResult :=
  let o := mainAcceptGo maxNew eos stop dProbs tProbs us dToks 0 gen0 0
  if o.finished then ⟨o.committed, o.gen, true⟩
  else if o.mismatched then
    ⟨o.committed ++ [fallbackTok], o.gen + 1,
      (stop && eosIs eos fallbackTok) || decide (maxNew ≤ o.gen + 1)⟩
  else
    ⟨o.committed ++ [bonusTok], o.gen + 1,
      (stop && eosIs eos bonusTok) || decide (maxNew ≤ o.gen + 1)⟩

/-! ## Shared concrete oracles for the concrete-input theorems -/

/-- A draft sampling oracle that always picks token `t` with reported
probability 1. -/
def pickConst (t : ℕ) : ℕ → List ℕ → ℕ × ℚ := fun _ _ => (t, 1)

/-- A target model whose distribution always puts all mass on token 4. -/
def tmArg4 : List ℕ → List ℚ := fun _ => [0, 0, 0, 0, 1]

/-- A target model with constant distribution `[1/10, 6/10, 3/10]`
(greedy token 1). -/
def tmC1 : List ℕ → List ℚ := fun _ => [1/10, 6/10, 3/10]

/-- A draft distribution at the break position for the C1 instance. -/
def qC1 : List ℚ := [0, 9/10, 1/10]

/-! ## Claim theorems -/

/-- C1, counterexample: on partial acceptance the code's forced token
is not a sample of the renormalized residual `max(P - Q, 0)`. With
`P = [1/10, 6/10, 3/10]` (target) and `Q = [0, 9/10, 1/10]` (draft,
break position) and draft token 2, `VerifyBatchTokens` forces token 1
(the greedy argmax of `P`); the renormalized residual gives token 1
probability 0, and a residual multinomial draw (here at `u = 1/2`)
yields token 2 instead. -/
theorem c1_forced_token_not_residual_counterexample :
    (verifySession (some 99) tmC1 ⟨[([5], false)]⟩ [2]).2 = [(0, 1, false)] ∧
    (normResidual (tmC1 [5, 2]) qC1).getD 1 0 = 0 ∧
    sampleIdx (normResidual (tmC1 [5, 2]) qC1) (1/2) = 2 := by
  norm_num [verifySession, allFinished, activeCount, verifyRowsGo, tmC1, qC1,
    idxOfMax, idxOfMaxAux, eosIs, normResidual, resEps, sampleIdx]

/-- C4, code bug: `UpdateDraftContext` with `new_token = 0` (the
orchestrator's pure-rollback call, main.py lines 200-204) does not
stop at the restored snapshot: the handler unconditionally runs a
forward step, so token id 0 is ingested into the restored context and
the snapshot stack is cleared. -/
theorem c4_update_context_ingests_zero_token :
    updateDraftContext ⟨[1, 2, 7], [some [1, 2], some [1, 2, 7]]⟩ 0 0 =
      some ⟨[1, 2, 0], []⟩ ∧
    (⟨[1, 2, 0], []⟩ : DraftState) ≠ ⟨[1, 2], []⟩ := by
  decide

/-- C5, code bug: after a `GenerateDraft` round of `draft_length = 1`
from context `[3]` that samples token 7, snapshot slot 1 (and the live
state) still hold the pre-round context `[3]`: the final sampled token
of a round is never ingested, so the last stack slot duplicates the
previous one instead of holding the state after emitting all sampled
tokens. -/
theorem c5_snapshot_last_slot_stale :
    (generateDraftRound (pickConst 7) 1 ⟨[3], []⟩).2.1 = [7] ∧
    (generateDraftRound (pickConst 7) 1 ⟨[3], []⟩).1.stack =
      [some [3], some [3]] ∧
    (generateDraftRound (pickConst 7) 1 ⟨[3], []⟩).1.stack.getD 1 none ≠
      some [3, 7] := by
  decide

/-- C1, amended: on a rejection, the forced token is the greedy argmax
of the target's next-token distribution at the break position
(`VerifyBatchTokens` compares the draft token against `argmax P` and
returns that argmax as `target_token`), and the orchestrator's
mismatch fallback (`GenerateTargetToken` invoked with an empty draft
distribution, main.py lines 208-215) samples from `P` itself; no
residual `max(P - Q, 0)` renormalization is performed anywhere. -/
theorem c1_forced_token_greedy_amended (eos : Option ℕ)
    (tm : List ℕ → List ℚ) (ctx : List ℕ) (d : ℕ)
    (h : idxOfMax (tm (ctx ++ [d])) ≠ d) :
    (verifySession eos tm ⟨[(ctx, false)]⟩ [d]).2 =
      [(0, idxOfMax (tm (ctx ++ [d])),
        eosIs eos (idxOfMax (tm (ctx ++ [d]))))] ∧
    (∀ P u, generateTargetToken P [] u = sampleIdx P u) := by
  constructor
  · simp [verifySession, allFinished, activeCount, verifyRowsGo, h]
  · intro P u
    rfl

/-- C1, witness for the amended theorem at a concrete mismatch. -/
theorem c1_forced_token_greedy_amended_witness :
    idxOfMax (tmArg4 ([1] ++ [2])) ≠ 2 ∧
    ((verifySession (some 99) tmArg4 ⟨[([1], false)]⟩ [2]).2 =
      [(0, idxOfMax (tmArg4 ([1] ++ [2])),
        eosIs (some 99) (idxOfMax (tmArg4 ([1] ++ [2]))))] ∧
     (∀ P u, generateTargetToken P [] u = sampleIdx P u)) :=
  ⟨by norm_num [tmArg4, idxOfMax, idxOfMaxAux],
   c1_forced_token_greedy_amended (some 99) tmArg4 [1] 2
     (by norm_num [tmArg4, idxOfMax, idxOfMaxAux])⟩

/-- C2, counterexample: at `q_i = 0` the code's acceptance test always
rejects — the bound is `0`, so even `u_i = 0` fails — whereas the claim
computes `r_i = min(1, p_i / max(q_i, ε)) = 1` (and separately demands
acceptance when `q_i = 0`). Instance: `p_i = 1/2`, `q_i = 0`,
`u_i = 0`. -/
theorem c2_zero_draft_prob_rejected_counterexample :
    specAccepts 0 (1/2) 0 = false ∧ claimThreshold (1/2) 0 = 1 ∧
    ((0 : ℚ) < 1) := by
  norm_num [specAccepts, acceptThreshold, claimThreshold, max_def, min_def]

/-- C2, amended: with `u_i ∈ [0,1)` the single-sequence loop accepts
token `i` iff `q_i > 0` and `u_i < min(1, p_i / q_i)`; when `q_i ≤ 0`
the bound is 0 and the token is always rejected. The constant `10⁻⁹`
is not a denominator clamp: it is only the default draft probability
used when the draft-probability list is shorter than the token list.
(The orchestrator variant in main.py instead substitutes `10⁻⁸` for a
non-positive `q_i` and accepts on ties, with no clamp to 1.) -/
theorem c2_acceptance_test_amended (u pT pD : ℚ) (hu : 0 ≤ u) :
    (specAccepts u pT pD = true ↔ (0 < pD ∧ u < min 1 (pT / pD))) ∧
    (∀ dProbs i, dProbs.length ≤ i →
      specDraftProb dProbs i = 1 / 1000000000) := by
  constructor
  · simp only [specAccepts, acceptThreshold, decide_eq_true_eq]
    split_ifs with hpd hlt hlt
    · rw [min_eq_left (le_of_lt hlt)]
      simp [hpd]
    · rw [min_eq_right (not_lt.mp hlt)]
      simp [hpd]
    · exact absurd hlt (by norm_num)
    · constructor
      · intro hu0
        exact absurd (lt_of_le_of_lt hu hu0) (lt_irrefl 0)
      · rintro ⟨h0, -⟩
        exact absurd h0 hpd
  · intro dProbs i hle
    unfold specDraftProb
    exact List.getD_eq_default _ _ hle

/-- C2, witness for the amended theorem at `u = 1/2`, `p = 3/4`,
`q = 1/2`. -/
theorem c2_acceptance_test_amended_witness :
    (0 : ℚ) ≤ 1/2 ∧
    ((specAccepts (1/2) (3/4) (1/2) = true ↔
      (0 < (1/2 : ℚ) ∧ (1/2 : ℚ) < min 1 ((3/4) / (1/2)))) ∧
     (∀ dProbs i, dProbs.length ≤ i →
       specDraftProb dProbs i = 1 / 1000000000)) :=
  ⟨by norm_num, c2_acceptance_test_amended (1/2) (3/4) (1/2) (by norm_num)⟩

/-- C3, counterexample: a fully accepted single-token round that does
not terminate the session commits exactly `a` tokens, not `a + 1`:
with the target's greedy token equal to the draft token 4,
`VerifyBatchTokens` answers `(tokens_accepted = 1, target_token = 0,
finished = false)` and the orchestrator commits only the accepted
block `[4]` — length 1, not `a + 1 = 2`. No bonus token is emitted on
full acceptance. -/
theorem c3_full_acceptance_no_bonus_counterexample :
    (verifySession (some 99) tmArg4 ⟨[([1], false)]⟩ [4]).2 =
      [(1, 0, false)] ∧
    batchRoundCommit [4] 1 0 = [4] ∧
    ¬ ([4] : List ℕ).length = 1 + 1 := by
  refine ⟨?_, by decide, by decide⟩
  norm_num [verifySession, allFinished, activeCount, verifyRowsGo, tmArg4,
    idxOfMax, idxOfMaxAux, eosIs]

/-- C3, amended: a round commits `a + 1` tokens only when the verifier
reports a nonzero mismatch token; on full acceptance the batch
orchestrator commits exactly `a` tokens (the target emits no bonus
token there), and the single-sequence `FinalizeTokens` handler always
answers `(final_token = 0, finished = true)`, so those rounds commit
exactly `a` tokens and terminate the session. -/
theorem c3_round_commit_amended (toks : List ℕ) (a m g c : ℕ)
    (h : a ≤ toks.length) :
    (batchRoundCommit toks a m).length = a + (if m ≠ 0 then 1 else 0) ∧
    finalizeTokens g c = (0, true) := by
  refine ⟨?_, rfl⟩
  unfold batchRoundCommit
  rw [List.length_append, List.length_take, min_eq_left h]
  by_cases hm : m = 0 <;> simp [hm]

/-- C3, witness for the amended theorem on block `[4, 5]` with `a = 2`
and mismatch token 9. -/
theorem c3_round_commit_amended_witness :
    2 ≤ ([4, 5] : List ℕ).length ∧
    ((batchRoundCommit [4, 5] 2 9).length = 2 + (if 9 ≠ 0 then 1 else 0) ∧
     finalizeTokens 2 2 = (0, true)) :=
  ⟨by decide, c3_round_commit_amended [4, 5] 2 9 2 2 (by decide)⟩

/-- Budget invariant of the orchestrator's acceptance loop (main.py
lines 152-189): entered strictly under budget, the loop ends at or
under `max_new_tokens` when it finishes the sequence and strictly
under it otherwise. -/
theorem mainAcceptGo_gen_bound (maxNew : ℕ) (eos : Option ℕ) (stop : Bool)
    (dProbs tProbs us : List ℚ) :
    ∀ (dToks : List ℕ) (j gen acc : ℕ), gen < maxNew →
      ((mainAcceptGo maxNew eos stop dProbs tProbs us dToks j gen acc).finished
          = true →
        (mainAcceptGo maxNew eos stop dProbs tProbs us dToks j gen acc).gen
          ≤ maxNew) ∧
      ((mainAcceptGo maxNew eos stop dProbs tProbs us dToks j gen acc).finished
          = false →
        (mainAcceptGo maxNew eos stop dProbs tProbs us dToks j gen acc).gen
          < maxNew) := by
  intro dToks
  induction dToks with
  | nil =>
      intro j gen acc h
      exact ⟨fun hf => by simp [mainAcceptGo] at hf, fun _ => by
        simpa [mainAcceptGo] using h⟩
  | cons d rest ih =>
      intro j gen acc h
      by_cases hrej : (tProbs.getD j 0) /
          (if 0 < dProbs.getD j 0 then dProbs.getD j 0 else 1 / 100000000) <
          us.getD j 0
      · simp only [mainAcceptGo, if_pos hrej]
        exact ⟨fun hf => by simp at hf, fun _ => h⟩
      · by_cases hfin : ((stop && eosIs eos d) ||
            decide (maxNew ≤ gen + 1)) = true
        · simp only [mainAcceptGo, if_neg hrej, if_pos hfin]
          exact ⟨fun _ => Nat.succ_le_of_lt h, fun hf => by simp at hf⟩
        · have hlt : gen + 1 < maxNew := by
            rcases Bool.or_eq_false_iff.mp (Bool.eq_false_iff.mpr hfin) with
              ⟨-, h2⟩
            have := of_decide_eq_false h2
            omega
          have IH := ih (j + 1) (gen + 1) (j + 1) hlt
          simp only [mainAcceptGo, if_neg hrej, if_neg hfin]
          exact IH

/-- Tail step of an orchestrator round: committing one extra token
from strictly under budget stays within budget, hits the budget only
with the finished flag set, and leaves the budget strict when the flag
stays clear. -/
theorem mainRoundTail_bound {maxNew g : ℕ} (b : Bool) (hg : g < maxNew) :
    g + 1 ≤ maxNew ∧
    (g + 1 = maxNew → (b || decide (maxNew ≤ g + 1)) = true) ∧
    ((b || decide (maxNew ≤ g + 1)) = false → g + 1 < maxNew) := by
  refine ⟨Nat.succ_le_of_lt hg, ?_, ?_⟩
  · intro heq
    simp [heq]
  · intro hf
    rcases Bool.or_eq_false_iff.mp hf with ⟨-, h2⟩
    have := of_decide_eq_false h2
    omega

/-- C6, amended: for every orchestrator round entered strictly under
the budget (which every reachable round is when
`max_new_tokens ≥ 1`), the generated count never exceeds
`max_new_tokens`; the round stops committing at exactly
`max_new_tokens` with the session marked finished (over-budget draft
tokens are simply never committed), and a round that leaves the
session unfinished stays strictly under budget — so the bound is an
invariant of the whole run. With `max_new_tokens = 0` the first round
still commits a token (the original claim's counterexample). -/
theorem c6_generated_bounded_amended (maxNew : ℕ) (eos : Option ℕ)
    (stop : Bool) (dToks : List ℕ) (dProbs tProbs us : List ℚ)
    (fb bonus gen0 : ℕ) (h : gen0 < maxNew) :
    (mainRound maxNew eos stop dToks dProbs tProbs us fb bonus gen0).gen
      ≤ maxNew ∧
    ((mainRound maxNew eos stop dToks dProbs tProbs us fb bonus gen0).gen
        = maxNew →
      (mainRound maxNew eos stop dToks dProbs tProbs us fb bonus gen0).finished
        = true) ∧
    ((mainRound maxNew eos stop dToks dProbs tProbs us fb bonus gen0).finished
        = false →
      (mainRound maxNew eos stop dToks dProbs tProbs us fb bonus gen0).gen
        < maxNew) := by
  have H := mainAcceptGo_gen_bound maxNew eos stop dProbs tProbs us dToks
    0 gen0 0 h
  unfold mainRound
  by_cases hf : (mainAcceptGo maxNew eos stop dProbs tProbs us dToks
      0 gen0 0).finished = true
  · rw [if_pos hf]
    exact ⟨H.1 hf, fun _ => rfl, fun hff => by simp at hff⟩
  · have hf' : (mainAcceptGo maxNew eos stop dProbs tProbs us dToks
        0 gen0 0).finished = false := Bool.eq_false_iff.mpr hf
    have hgen := H.2 hf'
    rw [if_neg hf]
    by_cases hm : (mainAcceptGo maxNew eos stop dProbs tProbs us dToks
        0 gen0 0).mismatched = true
    · rw [if_pos hm]
      exact mainRoundTail_bound _ hgen
    · rw [if_neg hm]
      exact mainRoundTail_bound _ hgen

/-- C6, witness for the amended theorem: budget 3, one accepted draft
token plus the bonus token. -/
theorem c6_generated_bounded_amended_witness :
    0 < 3 ∧
    ((mainRound 3 none false [5] [1] [1] [0] 7 8 0).gen ≤ 3 ∧
     ((mainRound 3 none false [5] [1] [1] [0] 7 8 0).gen = 3 →
       (mainRound 3 none false [5] [1] [1] [0] 7 8 0).finished = true) ∧
     ((mainRound 3 none false [5] [1] [1] [0] 7 8 0).finished = false →
       (mainRound 3 none false [5] [1] [1] [0] 7 8 0).gen < 3)) :=
  ⟨by decide,
   c6_generated_bounded_amended 3 none false [5] [1] [1] [0] 7 8 0
     (by decide)⟩

/-- C6, counterexample: with `max_new_tokens = 0` the orchestrator's
round loop still runs and commits a token — here the draft token 5 is
accepted (`p = q = 1`, `u = 0`) and counted, leaving
`tokens_generated = 1 > 0` in the returned output. The generated count
is not bounded by `max_new_tokens` for every session. -/
theorem c6_max_zero_overshoot_counterexample :
    (mainRound 0 none false [5] [1] [1] [0] 7 8 0).gen = 1 ∧ ¬ (1 ≤ 0) := by
  constructor
  · norm_num [mainRound, mainAcceptGo, eosIs]
  · decide

/-- C7, counterexample: issuing the same `FinalizeBatchTokens` request
twice double-commits. One session with committed row `[1, 2]`; the
request finalizes token 5 (not the EOS id 99). The first call yields
row `[1, 2, 5]`; the identical second call appends again, yielding
`[1, 2, 5, 5]` — it is neither rejected nor a no-op. -/
theorem c7_double_finalize_double_commit_counterexample :
    (finalizeBatch (some 99)
        (finalizeBatch (some 99) [(1, ⟨[([1, 2], false)]⟩)] [(1, [5])]).1
        [(1, [5])]).1 = [(1, ⟨[([1, 2, 5, 5], false)]⟩)] ∧
    (finalizeBatch (some 99) [(1, ⟨[([1, 2], false)]⟩)] [(1, [5])]).1 =
      [(1, ⟨[([1, 2, 5], false)]⟩)] ∧
    ([(1, ⟨[([1, 2, 5, 5], false)]⟩)] : List (Sid × TargetSession)) ≠
      [(1, ⟨[([1, 2, 5], false)]⟩)] := by
  decide

/-- C7, amended: `FinalizeBatchTokens` is not idempotent. Whenever the
session's first row is unfinished, the token list is non-empty and
contains no EOS, a repeated identical call appends the tokens a second
time (the committed row becomes `ctx ++ toks ++ toks`), an observable
change; the second call is a no-op only when it cannot commit at all —
session absent, empty token list, or every row already finished (in
particular after a first call whose tokens contain the EOS id). -/
theorem c7_finalize_not_idempotent_amended (eos : Option ℕ)
    (ctx toks : List ℕ) (rest : List (List ℕ × Bool)) (hne : toks ≠ [])
    (heos : toks.any (eosIs eos) = false) :
    (finalizeOne eos ⟨(ctx, false) :: rest⟩ toks).1 =
      ⟨(ctx ++ toks, false) :: rest⟩ ∧
    (finalizeOne eos (finalizeOne eos ⟨(ctx, false) :: rest⟩ toks).1
        toks).1 = ⟨(ctx ++ toks ++ toks, false) :: rest⟩ ∧
    (⟨(ctx ++ toks ++ toks, false) :: rest⟩ : TargetSession) ≠
      ⟨(ctx ++ toks, false) :: rest⟩ := by
  have h1 : (finalizeOne eos ⟨(ctx, false) :: rest⟩ toks).1 =
      ⟨(ctx ++ toks, false) :: rest⟩ := by
    simp [finalizeOne, hne, finalizeRows, heos]
  refine ⟨h1, ?_, ?_⟩
  · rw [h1]
    simp [finalizeOne, hne, finalizeRows, heos]
  · intro hEq
    have hrows : ctx ++ toks ++ toks = ctx ++ toks := by
      have := congrArg TargetSession.rows hEq
      simpa using this
    have hlen := congrArg List.length hrows
    simp [List.length_append] at hlen
    exact hne hlen

/-- C7, witness for the amended theorem: row `[1, 2]`, token list
`[5]`, EOS id 99. -/
theorem c7_finalize_not_idempotent_amended_witness :
    ([5] : List ℕ) ≠ [] ∧ ([5] : List ℕ).any (eosIs (some 99)) = false ∧
    ((finalizeOne (some 99) ⟨[([1, 2], false)]⟩ [5]).1 =
       ⟨[([1, 2] ++ [5], false)]⟩ ∧
     (finalizeOne (some 99)
         (finalizeOne (some 99) ⟨[([1, 2], false)]⟩ [5]).1 [5]).1 =
       ⟨[([1, 2] ++ [5] ++ [5], false)]⟩ ∧
     (⟨[([1, 2] ++ [5] ++ [5], false)]⟩ : TargetSession) ≠
       ⟨[([1, 2] ++ [5], false)]⟩) :=
  ⟨by decide, by decide,
   c7_finalize_not_idempotent_amended (some 99) [1, 2] [5] []
     (by decide) (by decide)⟩

/-- C8, counterexample: `VerifyBatchTokens` durably mutates the
session's committed token sequence. On the session with committed row
`[1, 2]` and accepted draft token 4 the call leaves row `[1, 2, 4]`,
and a following `FinalizeBatchTokens` of token 8 appends on top of it
(`[1, 2, 4, 8]`) instead of discarding any scratch region — the
verify-time write is permanent. -/
theorem c8_verify_mutates_committed_counterexample :
    (verifySession (some 99) tmArg4 ⟨[([1, 2], false)]⟩ [4]).1 =
      ⟨[([1, 2, 4], false)]⟩ ∧
    (⟨[([1, 2, 4], false)]⟩ : TargetSession) ≠ ⟨[([1, 2], false)]⟩ ∧
    (finalizeOne (some 99) ⟨[([1, 2, 4], false)]⟩ [8]).1 =
      ⟨[([1, 2, 4, 8], false)]⟩ := by
  refine ⟨?_, by decide, by decide⟩
  norm_num [verifySession, allFinished, activeCount, verifyRowsGo, tmArg4,
    idxOfMax, idxOfMaxAux, eosIs]

/-- C8, amended: on an active single-row session, `VerifyBatchTokens`
appends exactly one token to the committed row — the draft token when
the greedy comparison accepts it, otherwise the target's greedy token
— and the next `FinalizeBatchTokens` appends its tokens after it; no
part of the verify-time write is discarded. -/
theorem c8_verify_durable_append_amended (eos : Option ℕ)
    (tm : List ℕ → List ℚ) (ctx : List ℕ) (d c : ℕ) (toks : List ℕ)
    (hc : c = if idxOfMax (tm (ctx ++ [d])) = d then d
      else idxOfMax (tm (ctx ++ [d])))
    (hne : toks ≠ []) (hnf : eosIs eos c = false) :
    (verifySession eos tm ⟨[(ctx, false)]⟩ [d]).1 = ⟨[(ctx ++ [c], false)]⟩ ∧
    (finalizeOne eos ⟨[(ctx ++ [c], false)]⟩ toks).1 =
      ⟨[(ctx ++ [c] ++ toks, toks.any (eosIs eos))]⟩ := by
  constructor
  · subst hc
    simp [verifySession, allFinished, activeCount, verifyRowsGo, hnf]
  · simp [finalizeOne, hne, finalizeRows]

/-- C8, witness for the amended theorem: row `[1, 2]`, accepted draft
token 4, finalize token 8. -/
theorem c8_verify_durable_append_amended_witness :
    (4 = if idxOfMax (tmArg4 ([1, 2] ++ [4])) = 4 then 4
      else idxOfMax (tmArg4 ([1, 2] ++ [4]))) ∧
    ([8] : List ℕ) ≠ [] ∧ eosIs (some 99) 4 = false ∧
    ((verifySession (some 99) tmArg4 ⟨[([1, 2], false)]⟩ [4]).1 =
       ⟨[([1, 2] ++ [4], false)]⟩ ∧
     (finalizeOne (some 99) ⟨[([1, 2] ++ [4], false)]⟩ [8]).1 =
       ⟨[([1, 2] ++ [4] ++ [8], ([8] : List ℕ).any (eosIs (some 99)))]⟩) :=
  ⟨by norm_num [tmArg4, idxOfMax, idxOfMaxAux], by decide, by decide,
   c8_verify_durable_append_amended (some 99) tmArg4 [1, 2] 4 4 [8]
     (by norm_num [tmArg4, idxOfMax, idxOfMaxAux]) (by decide) (by decide)⟩

/-- C9, counterexample: RPCs that reference an unknown session id are
not answered with a recoverable-error response. `GenerateDraft` with
`draft_length = 2` on an empty session table and unknown id 3 returns
an empty outputs list — the session is silently skipped, no response
of any form is produced for it — and `VerifyBatchTokens` on unknown id
3 answers `(0, 0, finished := true)`, reporting the session as
normally finished. -/
theorem c9_unknown_session_counterexample :
    (generateDraftRPC (pickConst 7) 2 [] [3]).2 = [] ∧
    (verifyBatch (some 99) tmArg4 [] [(3, [5])]).2 =
      [(3, ((0, 0, true) : VerifyRes))] := by
  decide

/-- C9, amended: on an unknown session id the workers' session tables
are unchanged, but only `UpdateDraftContext` answers with a
`success = false` error; `GenerateDraft` (with a nonzero draft length)
silently omits the session from its outputs, and `VerifyBatchTokens`
reports it as `(0, 0, finished := true)`, i.e. as normally
finished. -/
theorem c9_unknown_session_amended (dtable : List (Sid × DraftState))
    (ttable : List (Sid × TargetSession)) (sid : Sid) (a tok γ : ℕ)
    (ds : List ℕ) (pick : ℕ → List ℕ → ℕ × ℚ) (tm : List ℕ → List ℚ)
    (eos : Option ℕ) (hd : dtable.lookup sid = none)
    (ht : ttable.lookup sid = none) (hγ : γ ≠ 0) :
    updateDraftContextRPC dtable sid a tok = (false, dtable) ∧
    generateDraftRPC pick γ dtable [sid] = (dtable, []) ∧
    verifyBatch eos tm ttable [(sid, ds)] =
      (ttable, [(sid, ((0, 0, true) : VerifyRes))]) := by
  refine ⟨?_, ?_, ?_⟩
  · unfold updateDraftContextRPC
    rw [hd]
  · unfold generateDraftRPC
    rw [if_neg hγ]
    unfold generateDraftGo
    rw [hd]
    rfl
  · unfold verifyBatch verifyBatchGo
    rw [ht]
    rfl

/-- C9, witness for the amended theorem: tables holding only session
1, requested session id 2. -/
theorem c9_unknown_session_amended_witness :
    (([(1, (⟨[], []⟩ : DraftState))] : List (Sid × DraftState)).lookup 2
      = none) ∧
    (([(1, (⟨[([6], false)]⟩ : TargetSession))] :
        List (Sid × TargetSession)).lookup 2 = none) ∧
    (3 : ℕ) ≠ 0 ∧
    (updateDraftContextRPC [(1, ⟨[], []⟩)] 2 0 4 =
        (false, [(1, ⟨[], []⟩)]) ∧
     generateDraftRPC (pickConst 7) 3 [(1, ⟨[], []⟩)] [2] =
        ([(1, ⟨[], []⟩)], []) ∧
     verifyBatch (some 99) tmArg4 [(1, ⟨[([6], false)]⟩)] [(2, [5])] =
        ([(1, ⟨[([6], false)]⟩)], [(2, ((0, 0, true) : VerifyRes))])) :=
  ⟨by decide, by decide, by decide,
   c9_unknown_session_amended [(1, ⟨[], []⟩)] [(1, ⟨[([6], false)]⟩)]
     2 0 4 3 [5] (pickConst 7) tmArg4 (some 99)
     (by decide) (by decide) (by decide)⟩

/-- The token and probability outputs of the `GenerateDraft` loop grow
in lockstep, one entry per completed iteration. -/
theorem draftGo_len (pick : ℕ → List ℕ → ℕ × ℚ) (γ : ℕ) :
    ∀ (fuel i : ℕ) (cur toks : List ℕ) (ps : List ℚ)
      (stk : List (Option (List ℕ))),
      (draftGo pick γ fuel i cur toks ps stk).2.1.length =
        toks.length + fuel ∧
      (draftGo pick γ fuel i cur toks ps stk).2.2.1.length =
        ps.length + fuel := by
  intro fuel
  induction fuel with
  | zero =>
      intro i cur toks ps stk
      simp [draftGo]
  | succ n ih =>
      intro i cur toks ps stk
      simp only [draftGo]
      by_cases h : i < γ
      · rw [if_pos h]
        have := ih (i + 1) (cur ++ [(pick i cur).1])
          (toks ++ [(pick i cur).1]) (ps ++ [(pick i cur).2])
          (stk.set i (some (cur ++ [(pick i cur).1])))
        constructor
        · rw [this.1, List.length_append]
          simp
          omega
        · rw [this.2, List.length_append]
          simp
          omega
      · rw [if_neg h]
        have := ih (i + 1) cur (toks ++ [(pick i cur).1])
          (ps ++ [(pick i cur).2]) stk
        constructor
        · rw [this.1, List.length_append]
          simp
          omega
        · rw [this.2, List.length_append]
          simp
          omega

/-- C10, confirmed: every per-session output of `GenerateDraft` has
token and probability lists of equal length, that length is at most
the requested `draft_length` — exactly `draft_length` for an
exception-free round, and the count of completed iterations
(`k ≤ draft_length`) when a forward-pass error ended the loop early —
and a `draft_length = 0` request answers every requested session with
two empty lists while touching no session state. -/
theorem c10_draft_output_wellformed :
    (∀ (pick : ℕ → List ℕ → ℕ × ℚ) (γ : ℕ) (st : DraftState),
      (generateDraftRound pick γ st).2.1.length =
        (generateDraftRound pick γ st).2.2.length ∧
      (generateDraftRound pick γ st).2.1.length ≤ γ) ∧
    (∀ (pick : ℕ → List ℕ → ℕ × ℚ) (γ : ℕ) (st : DraftState) (k : ℕ),
      k ≤ γ →
      (draftGo pick γ k 1 st.past [] [] (initStack γ st)).2.1.length =
        (draftGo pick γ k 1 st.past [] [] (initStack γ st)).2.2.1.length ∧
      (draftGo pick γ k 1 st.past [] [] (initStack γ st)).2.1.length ≤ γ) ∧
    (∀ (pick : ℕ → List ℕ → ℕ × ℚ) (table : List (Sid × DraftState))
      (sids : List Sid),
      generateDraftRPC pick 0 table sids =
        (table, sids.map fun s => (s, [], []))) := by
  refine ⟨?_, ?_, ?_⟩
  · intro pick γ st
    have h := draftGo_len pick γ γ 1 st.past [] [] (initStack γ st)
    unfold generateDraftRound
    constructor
    · rw [h.1, h.2]
      simp
    · rw [h.1]
      simp
  · intro pick γ st k hk
    have h := draftGo_len pick γ k 1 st.past [] [] (initStack γ st)
    refine ⟨by rw [h.1, h.2]; simp, ?_⟩
    rw [h.1]
    simpa using hk
  · intro pick table sids
    rfl

/-- C10, witness: a partial run of one iteration out of
`draft_length = 2`, and a `draft_length = 0` request. -/
theorem c10_draft_output_wellformed_witness :
    (1 : ℕ) ≤ 2 ∧
    ((draftGo (pickConst 7) 2 1 1 (DraftState.past ⟨[3], []⟩) [] []
        (initStack 2 ⟨[3], []⟩)).2.1.length =
      (draftGo (pickConst 7) 2 1 1 (DraftState.past ⟨[3], []⟩) [] []
        (initStack 2 ⟨[3], []⟩)).2.2.1.length ∧
     (draftGo (pickConst 7) 2 1 1 (DraftState.past ⟨[3], []⟩) [] []
        (initStack 2 ⟨[3], []⟩)).2.1.length ≤ 2) ∧
    generateDraftRPC (pickConst 7) 0 [(1, ⟨[3], []⟩)] [1, 2] =
      ([(1, ⟨[3], []⟩)], [(1, [], []), (2, [], [])]) :=
  ⟨by decide,
   c10_draft_output_wellformed.2.1 (pickConst 7) 2 ⟨[3], []⟩ 1 (by decide),
   c10_draft_output_wellformed.2.2 (pickConst 7) [(1, ⟨[3], []⟩)] [1, 2]⟩
